import Mathlib

/-!
Shallow embedding of the rate-fetching and summary logic of
`src/agent.ts` (USD Currency Converter agent).

External effects (HTTP fetch, `response.json()`, the LLM chat call,
`JSON.parse` of the LLM text) are modelled as explicit inputs; numbers
are modelled as JavaScript numbers (finite rationals, infinities, NaN);
fallible code returns `Except String`.
-/

deriving instance DecidableEq for Except

namespace UsdAgent

/-- A JavaScript number: a finite value, an infinity, or NaN.
`JSON.parse` can yield any of the non-NaN forms (`1e999` parses to
Infinity); NaN is included because the code tests `Number.isNaN`. -/
inductive JSNum where
  | finite (q : ℚ)
  | posInf
  | negInf
  | nan
deriving DecidableEq, Repr

/-- The test Number.isNaN. -/
def JSNum.isNaN : JSNum → Bool
  | .nan => true
  | _ => false

/-- A JSON value as materialised by `JSON.parse` / `response.json()`.
Arrays and objects are encoded as cons-chains (`arrNil`/`arrCons`,
`objNil`/`objCons`) so that equality is decidable and recursion is
structural; object keys are assumed distinct (JSON.parse keeps one
binding per key). -/
inductive JsonVal where
  | null
  | bool (b : Bool)
  | num (n : JSNum)
  | str (s : String)
  | arrNil
  | arrCons (head : JsonVal) (tail : JsonVal)
  | objNil
  | objCons (key : String) (val : JsonVal) (rest : JsonVal)
deriving DecidableEq, Repr

/-- Whether a value is an array, as tested by `Array.isArray`. -/
def JsonVal.isArray : JsonVal → Bool
  | .arrNil => true
  | .arrCons _ _ => true
  | _ => false

/-- The element list of an array value. -/
def JsonVal.elems : JsonVal → List JsonVal
  | .arrCons head tail => head :: tail.elems
  | _ => []

/-- JavaScript property access `v[key]`: a field of an object, `undefined`
(`none`) otherwise.  (For the keys this program uses — currency codes,
`result`, `rates`, `usd`, `summary`, `highlights`, `content` — no
prototype property interferes.  Access on `null` throws; callers that can
receive `null` handle that case explicitly.) -/
def getField : JsonVal → String → Option JsonVal
  | .objCons k v rest, key => if k = key then some v else getField rest key
  | _, _ => none

/-- Property access on a possibly-`undefined` base, as in
`payload.rates[currency]`. -/
def jsIndex : Option JsonVal → String → Option JsonVal
  | some v, key => getField v key
  | none, _ => none

/-- JavaScript truthiness of a possibly-`undefined` value, as used by
`!payload.rates` and `!payload.usd`. -/
def truthy : Option JsonVal → Bool
  | none => false
  | some .null => false
  | some (.bool b) => b
  | some (.num (.finite q)) => decide (q ≠ 0)
  | some (.num .posInf) => true
  | some (.num .negInf) => true
  | some (.num .nan) => false
  | some (.str s) => decide (s ≠ "")
  | some .arrNil => true
  | some (.arrCons _ _) => true
  | some .objNil => true
  | some (.objCons _ _ _) => true

/-- The constant TOP_CURRENCIES: the five required currency codes in their declared order. -/
def TOP_CURRENCIES : List String := ["EUR", "CNY", "JPY", "GBP", "AUD"]

/-- One element of the normalized `rates` array: `{ currency, rate }`. -/
structure RateEntry where
  currency : String
  rate : JSNum
deriving DecidableEq, Repr

/-- A RatesResult as produced by a provider adapter.  `rates` is the
record built key-by-key in `TOP_CURRENCIES` order; `updatedAt` is the raw
provider field (`time_last_update_utc` / `date`), which the TypeScript
type annotates as a string but which can be any JSON value or absent. -/
structure RatesResult where
  rates : List (String × JSNum)
  updatedAt : Option JsonVal
  provider : String
deriving DecidableEq, Repr

/-- The outcome of one `fetch` call as the adapter observes it: either the
fetch itself rejects (transport failure, carrying the thrown error's
message), or a response arrives with an `ok` flag, a status code, and a
body that `response.json()` either parses (`.ok`) or rejects on (`.error`,
carrying the SyntaxError's message). -/
inductive FetchOutcome where
  | transportError (msg : String)
  | response (ok : Bool) (status : Nat) (body : Except String JsonVal)
deriving DecidableEq, Repr

/-- The acceptance test `typeof rate !== "number" || Number.isNaN(rate)`
(negated) applied to a looked-up value: `some n` exactly when the value
is a non-NaN number `n`. -/
def numericRate : Option JsonVal → Option JSNum
  | some (.num n) => if n.isNaN then none else some n
  | _ => none

/-- The `for (const currency of TOP_CURRENCIES)` loop of
`fetchFromOpenErApi`: reads `payload.rates[currency]`, requires a
non-NaN number, and builds the `rates` record in iteration order. -/
def openErApiLoop (ratesContainer : Option JsonVal) :
    List String → Except String (List (String × JSNum))
  | [] => .ok []
  | currency :: rest =>
    match numericRate (jsIndex ratesContainer currency) with
    | some n =>
      (openErApiLoop ratesContainer rest).map (fun tail => (currency, n) :: tail)
    | none => .error ("open.er-api missing rate for " ++ currency ++ ".")

/-- Primary adapter fetchFromOpenErApi.  Mirrors the source order:
`await response.json()` runs before the `response.ok` check, so a body
that fails to parse surfaces its parse error even on a non-ok status;
then the `result !== "success" || !payload.rates` shape check; then the
per-currency loop. -/
def fetchFromOpenErApi : FetchOutcome → Except String RatesResult
  | .transportError msg => .error msg
  | .response ok status body =>
    match body with
    | .error jsonErr => .error jsonErr
    | .ok payload =>
      if !ok then
        .error ("open.er-api responded with unexpected status " ++ toString status ++ ".")
      else if getField payload "result" != some (.str "success")
          || !truthy (getField payload "rates") then
        .error "open.er-api response did not contain USD rate data."
      else
        (openErApiLoop (getField payload "rates") TOP_CURRENCIES).map fun rates =>
          { rates := rates
            updatedAt := getField payload "time_last_update_utc"
            provider := "open.er-api" }

/-- JavaScript String.prototype.toLowerCase (character-wise; the currency codes
are ASCII). -/
def jsToLower (s : String) : String := String.mk (s.data.map Char.toLower)

/-- The per-currency loop of `fetchFromJsDelivr`: looks the rate up under
`currency.toLowerCase()` and stores it under the original code. -/
def jsDelivrLoop (usdContainer : Option JsonVal) :
    List String → Except String (List (String × JSNum))
  | [] => .ok []
  | currency :: rest =>
    match numericRate (jsIndex usdContainer (jsToLower currency)) with
    | some n =>
      (jsDelivrLoop usdContainer rest).map (fun tail => (currency, n) :: tail)
    | none => .error ("jsDelivr currency API missing rate for " ++ currency ++ ".")

/-- Secondary adapter fetchFromJsDelivr.  Same ordering as the source:
json parse, then the status check, then the `!payload.usd` shape check,
then the per-currency loop. -/
def fetchFromJsDelivr : FetchOutcome → Except String RatesResult
  | .transportError msg => .error msg
  | .response ok status body =>
    match body with
    | .error jsonErr => .error jsonErr
    | .ok payload =>
      if !ok then
        .error ("jsDelivr currency API responded with unexpected status " ++ toString status ++ ".")
      else if !truthy (getField payload "usd") then
        .error "jsDelivr currency API response did not include usd rates."
      else
        (jsDelivrLoop (getField payload "usd") TOP_CURRENCIES).map fun rates =>
          { rates := rates
            updatedAt := getField payload "date"
            provider := "fawazahmed0/currency-api" }

/-- The aggregated failure message of `fetchUsdRates` when both providers
fail. -/
def aggregateMsg (primaryMessage fallbackMessage : String) : String :=
  "Unable to fetch USD conversion rates from available providers (primary: "
    ++ primaryMessage ++ "; fallback: " ++ fallbackMessage ++ ")."

/-- The orchestrator fetchUsdRates, instrumented: the second component records whether the
Secondary adapter was invoked.  The orchestrator takes the outcome each
provider's fetch *would* produce; Secondary's outcome is consulted only on
Primary failure, mirroring the `try`/`catch` nesting. -/
def fetchUsdRatesT (primaryOutcome fallbackOutcome : FetchOutcome) :
    Except String RatesResult × Bool :=
  match fetchFromOpenErApi primaryOutcome with
  | .ok result => (.ok result, false)
  | .error primaryMessage =>
    match fetchFromJsDelivr fallbackOutcome with
    | .ok result => (.ok result, true)
    | .error fallbackMessage =>
      (.error (aggregateMsg primaryMessage fallbackMessage), true)

/-- The orchestrator as its callers see it. -/
def fetchUsdRates (primaryOutcome fallbackOutcome : FetchOutcome) :
    Except String RatesResult :=
  (fetchUsdRatesT primaryOutcome fallbackOutcome).1

/-- Lookup in a `Record<string, number>` value (`rateRecord[currency]`),
`none` meaning `undefined`. -/
def recordLookup : List (String × JSNum) → String → Option JSNum
  | [], _ => none
  | (k, v) :: rest, key => if k = key then some v else recordLookup rest key

/-- The test `typeof rate !== "number" || Number.isNaN(rate)` (negated)
on a record lookup, whose values are already numbers: `undefined` or NaN
is rejected. -/
def validRate : Option JSNum → Option JSNum
  | some rate => if rate.isNaN then none else some rate
  | none => none

/-- The `TOP_CURRENCIES.map` body of `mapRatesFromRecord`: a missing key
or a NaN value throws `Missing rate for <currency>.`. -/
def mapRatesLoop (rateRecord : List (String × JSNum)) :
    List String → Except String (List RateEntry)
  | [] => .ok []
  | currency :: rest =>
    match validRate (recordLookup rateRecord currency) with
    | some rate =>
      (mapRatesLoop rateRecord rest).map
        (fun tail => { currency := currency, rate := rate } :: tail)
    | none => .error ("Missing rate for " ++ currency ++ ".")

/-- The function mapRatesFromRecord. -/
def mapRatesFromRecord (rateRecord : List (String × JSNum)) :
    Except String (List RateEntry) :=
  mapRatesLoop rateRecord TOP_CURRENCIES

/-- The output object of the `usd-conversions` entrypoint.  `updatedAt`
is `some s` when the provider supplied a string timestamp; `none` stands
for the wall-clock `new Date().toISOString()` fallback, which is outside
the pure model. -/
structure ConversionsOutput where
  base : String
  rates : List RateEntry
  updatedAt : Option String
deriving DecidableEq, Repr

/-- The expression `typeof updatedAt === "string" ? updatedAt : new Date().toISOString()`. -/
def timestampOf : Option JsonVal → Option String
  | some (.str s) => some s
  | _ => none

/-- The `usd-conversions` handler: fetch with fallback, then normalize. -/
def usdConversionsHandler (primaryOutcome fallbackOutcome : FetchOutcome) :
    Except String ConversionsOutput :=
  match fetchUsdRates primaryOutcome fallbackOutcome with
  | .error e => .error e
  | .ok result =>
    match mapRatesFromRecord result.rates with
    | .error e => .error e
    | .ok rates =>
      .ok { base := "USD", rates := rates, updatedAt := timestampOf result.updatedAt }

/-- JavaScript `\s` whitespace (the ASCII part plus NBSP; the exotic
Unicode space characters never occur in this program's strings). -/
def isJsWhitespace (c : Char) : Bool :=
  c = ' ' || c = '\t' || c = '\n' || c = '\r' ||
    c = Char.ofNat 0x0B || c = Char.ofNat 0x0C || c = Char.ofNat 0xA0

/-- Drop whitespace from both ends of a character list. -/
def trimChars (cs : List Char) : List Char :=
  ((cs.dropWhile isJsWhitespace).reverse.dropWhile isJsWhitespace).reverse

/-- JavaScript String.prototype.trim. -/
def jsTrim (s : String) : String := String.mk (trimChars s.data)

/-- Split a character list at every occurrence of `sep`, keeping empty
pieces (like `split("\n")`). -/
def splitChar (sep : Char) : List Char → List (List Char)
  | [] => [[]]
  | c :: cs =>
    let rest := splitChar sep cs
    if c = sep then [] :: rest
    else
      match rest with
      | [] => [[c]]
      | r :: rs => (c :: r) :: rs

/-- A character matched by the bullet-stripping class `[\-\*\d\.\s]`. -/
def isBulletChar (c : Char) : Bool :=
  c = '-' || c = '*' || c.isDigit || c = '.' || isJsWhitespace c

/-- One line of the catch-branch pipeline:
`line.replace(/^[\-\*\d\.\s]+/, "").trim()` — the anchored greedy class
is exactly a `dropWhile`. -/
def cleanLine (line : List Char) : List Char :=
  trimChars (line.dropWhile isBulletChar)

/-- The catch-branch line extraction: `rawContent.split(/\n+/)`, each
piece stripped of leading bullet characters and trimmed, empty pieces
dropped.  (Splitting at single newlines instead of runs only adds empty
pieces, which the final filter removes, so the resulting list is the
same.) -/
def fallbackLines (rawContent : String) : List String :=
  (((splitChar '\n' rawContent.data).map cleanLine).filter
    (fun l => l.length > 0)).map String.mk

/-- JavaScript number-to-string.  The decimal rendering of non-integer
doubles is approximated (no claim depends on those digits); integers,
infinities and NaN render exactly. -/
def jsNumToString : JSNum → String
  | .nan => "NaN"
  | .posInf => "Infinity"
  | .negInf => "-Infinity"
  | .finite q => if q.den = 1 then toString q.num else toString q

mutual

/-- The conversion String(value) for JSON values.  Arrays follow
`Array.prototype.join(",")`, where `null` elements render as `""`. -/
def jsString : JsonVal → String
  | .null => "null"
  | .bool b => if b then "true" else "false"
  | .num n => jsNumToString n
  | .str s => s
  | .arrNil => ""
  | .arrCons .null tail => jsRest tail
  | .arrCons head tail => jsString head ++ jsRest tail
  | .objNil => "[object Object]"
  | .objCons _ _ _ => "[object Object]"

/-- A comma followed by each remaining array element's rendering. -/
def jsRest : JsonVal → String
  | .arrCons .null tail => "," ++ jsRest tail
  | .arrCons head tail => "," ++ jsString head ++ jsRest tail
  | _ => ""

end

/-- Left-pad a number below 10000 to four digits. -/
def padTo4 (n : ℕ) : String :=
  if n < 10 then "000" ++ toString n
  else if n < 100 then "00" ++ toString n
  else if n < 1000 then "0" ++ toString n
  else toString n

/-- The rendering rate.toFixed(4), with exact rational rounding (half away from zero)
standing in for double rounding (no claim depends on the digits). -/
def toFixed4 : JSNum → String
  | .nan => "NaN"
  | .posInf => "Infinity"
  | .negInf => "-Infinity"
  | .finite q =>
    let scaled : ℤ :=
      (2 * q.num * 10000 + (if 0 ≤ q.num then (q.den : ℤ) else -(q.den : ℤ)))
        / (2 * (q.den : ℤ))
    (if scaled < 0 then "-" else "")
      ++ toString (scaled.natAbs / 10000) ++ "." ++ padTo4 (scaled.natAbs % 10000)

/-- The extraction `Array.isArray(response.results) ? response.results[0] : undefined`,
then `typeof primaryResult?.content === "string" ?
primaryResult.content.trim() : ""`.  Optional chaining makes a `null`
first element yield `undefined`, hence `""`. -/
def rawContentOf (results : Option JsonVal) : String :=
  match results with
  | some (.arrCons first _) =>
    match getField first "content" with
    | some (.str s) => jsTrim s
    | _ => ""
  | _ => ""

/-- The catch branch plus the initial values: first cleaned non-empty line
becomes the summary (`rawContent` if there are none), the next up to three
become highlights (`lines.slice(1, 4)`). -/
def fallbackExtract (rawContent : String) : String × List String :=
  match fallbackLines rawContent with
  | [] => (rawContent, [])
  | line0 :: rest => (line0, rest.take 3)

/-- Lines 371–396 of the handler: summary defaults to `rawContent`,
highlights to `[]`; a strict-JSON parse (`parsed = some p`) reads the
`summary` and `highlights` fields; a failed parse (`parsed = none`) runs
the line-splitting fallback.  Property access on a parsed `null` throws a
TypeError inside the same `try`, so that case also reaches the catch
branch. -/
def extractSummaryHighlights (rawContent : String) (parsed : Option JsonVal) :
    String × List String :=
  match parsed with
  | some p =>
    if p = .null then fallbackExtract rawContent
    else
      let summary :=
        match getField p "summary" with
        | some (.str s) => jsTrim s
        | _ => rawContent
      let highlights :=
        match getField p "highlights" with
        | some hv =>
          if hv.isArray then
            (hv.elems.map fun item => jsTrim (jsString item)).filter
              fun item => item.length > 0
          else []
        | none => []
      (summary, highlights)
  | none => fallbackExtract rawContent

/-- One synthesized highlight:
`USD/<currency> trades near <rate.toFixed(4)>.` -/
def synthHighlight (entry : RateEntry) : String :=
  "USD/" ++ entry.currency ++ " trades near " ++ toFixed4 entry.rate ++ "."

/-- The step `if (highlights.length === 0)`: synthesize from `rates.slice(0, 3)`. -/
def finalizeHighlights (highlights : List String) (rates : List RateEntry) :
    List String :=
  if highlights.length = 0 then (rates.take 3).map synthHighlight
  else highlights

/-- Output object of the `usd-market-summary` entrypoint (`updatedAt` as
in `ConversionsOutput`). -/
structure SummaryOutput where
  base : String
  updatedAt : Option String
  summary : String
  highlights : List String
  dataProvider : String
  rates : List RateEntry
deriving DecidableEq, Repr

/-- The configuration error thrown when no LLM provider is available. -/
def configErrorMsg : String :=
  "LLM provider is not configured. Set OPENAI_API_KEY to enable market summaries."

/-- The error thrown when the chat response carries no usable content. -/
def noContentMsg : String := "LLM did not return any content."

/-- The `usd-market-summary` handler.  `configured` models
`axClient.ax && axClient.isConfigured()`; `chatOutcome` models the
`ai.chat` call — `.error` when it rejects, `.ok results` carrying the
`results` field of the delivered response (`none` = absent); `parsed`
models the outcome of `JSON.parse rawContent` (`none` = the parse
throws).  Prompt construction (focus, tone, rate lines) does not affect
the output object and is omitted. -/
def summaryHandler (configured : Bool)
    (primaryOutcome fallbackOutcome : FetchOutcome)
    (chatOutcome : Except String (Option JsonVal)) (parsed : Option JsonVal) :
    Except String SummaryOutput :=
  if !configured then .error configErrorMsg
  else
    match fetchUsdRates primaryOutcome fallbackOutcome with
    | .error e => .error e
    | .ok result =>
      match mapRatesFromRecord result.rates with
      | .error e => .error e
      | .ok rates =>
        match chatOutcome with
        | .error e => .error e
        | .ok results =>
          let rawContent := rawContentOf results
          if rawContent = "" then .error noContentMsg
          else
            let se := extractSummaryHighlights rawContent parsed
            let highlights := finalizeHighlights se.2 rates
            .ok { base := "USD", updatedAt := timestampOf result.updatedAt,
                  summary := se.1, highlights := highlights,
                  dataProvider := result.provider, rates := rates }

/-! ### Helper lemmas -/

theorem numericRate_eq_some {v : Option JsonVal} {n : JSNum} :
    numericRate v = some n ↔ v = some (.num n) ∧ n.isNaN = false := by
  rcases v with _ | w
  · simp [numericRate]
  · cases w <;> simp [numericRate]
    case num m =>
      by_cases hm : m.isNaN = true
      · simp [hm]
        rintro rfl
        exact hm
      · simp [hm]
        rintro rfl
        simpa using hm

theorem validRate_eq_some {v : Option JSNum} {n : JSNum} :
    validRate v = some n ↔ v = some n ∧ n.isNaN = false := by
  rcases v with _ | m
  · simp [validRate]
  · by_cases hm : m.isNaN = true
    · simp [validRate, hm]
      rintro rfl
      exact hm
    · simp [validRate, hm]
      rintro rfl
      simpa using hm

theorem openErApiLoop_ok (container : Option JsonVal) :
    ∀ (cs : List String) (out : List (String × JSNum)),
      openErApiLoop container cs = .ok out →
      out.map Prod.fst = cs ∧
        ∀ c ∈ cs, ∃ n : JSNum,
          numericRate (jsIndex container c) = some n ∧ (c, n) ∈ out := by
  intro cs
  induction cs with
  | nil =>
    intro out h
    obtain rfl : ([] : List (String × JSNum)) = out := by
      simpa [openErApiLoop] using h
    simp
  | cons c rest ih =>
    intro out h
    simp only [openErApiLoop] at h
    rcases hv : numericRate (jsIndex container c) with _ | n <;> rw [hv] at h
    · simp at h
    · rcases hrec : openErApiLoop container rest with e | tail <;> rw [hrec] at h
      · simp [Except.map] at h
      · obtain rfl : (c, n) :: tail = out := by simpa [Except.map] using h
        obtain ⟨hmap, hall⟩ := ih tail hrec
        refine ⟨by simp [hmap], ?_⟩
        intro c' hc'
        rcases List.mem_cons.mp hc' with rfl | hmem
        · exact ⟨n, hv, List.mem_cons_self _ _⟩
        · obtain ⟨n', hn', hmemout⟩ := hall c' hmem
          exact ⟨n', hn', List.mem_cons_of_mem _ hmemout⟩

theorem jsDelivrLoop_ok (container : Option JsonVal) :
    ∀ (cs : List String) (out : List (String × JSNum)),
      jsDelivrLoop container cs = .ok out →
      out.map Prod.fst = cs ∧
        ∀ c ∈ cs, ∃ n : JSNum,
          numericRate (jsIndex container (jsToLower c)) = some n ∧ (c, n) ∈ out := by
  intro cs
  induction cs with
  | nil =>
    intro out h
    obtain rfl : ([] : List (String × JSNum)) = out := by
      simpa [jsDelivrLoop] using h
    simp
  | cons c rest ih =>
    intro out h
    simp only [jsDelivrLoop] at h
    rcases hv : numericRate (jsIndex container (jsToLower c)) with _ | n <;> rw [hv] at h
    · simp at h
    · rcases hrec : jsDelivrLoop container rest with e | tail <;> rw [hrec] at h
      · simp [Except.map] at h
      · obtain rfl : (c, n) :: tail = out := by simpa [Except.map] using h
        obtain ⟨hmap, hall⟩ := ih tail hrec
        refine ⟨by simp [hmap], ?_⟩
        intro c' hc'
        rcases List.mem_cons.mp hc' with rfl | hmem
        · exact ⟨n, hv, List.mem_cons_self _ _⟩
        · obtain ⟨n', hn', hmemout⟩ := hall c' hmem
          exact ⟨n', hn', List.mem_cons_of_mem _ hmemout⟩

theorem mapRatesLoop_ok (rateRecord : List (String × JSNum)) :
    ∀ (cs : List String) (out : List RateEntry),
      mapRatesLoop rateRecord cs = .ok out →
      out.map RateEntry.currency = cs ∧
        ∀ e ∈ out, validRate (recordLookup rateRecord e.currency) = some e.rate := by
  intro cs
  induction cs with
  | nil =>
    intro out h
    obtain rfl : ([] : List RateEntry) = out := by
      simpa [mapRatesLoop] using h
    simp
  | cons c rest ih =>
    intro out h
    simp only [mapRatesLoop] at h
    rcases hv : validRate (recordLookup rateRecord c) with _ | n <;> rw [hv] at h
    · simp at h
    · rcases hrec : mapRatesLoop rateRecord rest with e | tail <;> rw [hrec] at h
      · simp [Except.map] at h
      · obtain rfl : ({ currency := c, rate := n } : RateEntry) :: tail = out := by
          simpa [Except.map] using h
        obtain ⟨hmap, hall⟩ := ih tail hrec
        refine ⟨by simp [hmap], ?_⟩
        intro e he
        rcases List.mem_cons.mp he with rfl | hmem
        · exact hv
        · exact hall e hmem

theorem fetchFromOpenErApi_ok_shape (o : FetchOutcome) (r : RatesResult)
    (h : fetchFromOpenErApi o = .ok r) :
    ∃ (status : Nat) (payload : JsonVal),
      o = .response true status (.ok payload) ∧
      openErApiLoop (getField payload "rates") TOP_CURRENCIES = .ok r.rates ∧
      r.provider = "open.er-api" := by
  rcases o with msg | ⟨ok, status, body⟩
  · exact absurd h (by simp [fetchFromOpenErApi])
  · rcases body with e | payload
    · exact absurd h (by simp [fetchFromOpenErApi])
    · cases ok
      · exact absurd h (by simp [fetchFromOpenErApi])
      · simp only [fetchFromOpenErApi, Bool.not_true] at h
        rw [if_neg (by simp)] at h
        split at h
        · exact absurd h (by simp)
        · rcases hloop : openErApiLoop (getField payload "rates") TOP_CURRENCIES
            with e | rates <;> rw [hloop] at h
          · exact absurd h (by simp [Except.map])
          · obtain rfl :
                RatesResult.mk rates (getField payload "time_last_update_utc")
                  "open.er-api" = r := by
              simpa [Except.map] using h
            exact ⟨status, payload, rfl, hloop, rfl⟩

theorem fetchFromJsDelivr_ok_shape (o : FetchOutcome) (r : RatesResult)
    (h : fetchFromJsDelivr o = .ok r) :
    ∃ (status : Nat) (payload : JsonVal),
      o = .response true status (.ok payload) ∧
      jsDelivrLoop (getField payload "usd") TOP_CURRENCIES = .ok r.rates ∧
      r.provider = "fawazahmed0/currency-api" := by
  rcases o with msg | ⟨ok, status, body⟩
  · exact absurd h (by simp [fetchFromJsDelivr])
  · rcases body with e | payload
    · exact absurd h (by simp [fetchFromJsDelivr])
    · cases ok
      · exact absurd h (by simp [fetchFromJsDelivr])
      · simp only [fetchFromJsDelivr, Bool.not_true] at h
        rw [if_neg (by simp)] at h
        split at h
        · exact absurd h (by simp)
        · rcases hloop : jsDelivrLoop (getField payload "usd") TOP_CURRENCIES
            with e | rates <;> rw [hloop] at h
          · exact absurd h (by simp [Except.map])
          · obtain rfl :
                RatesResult.mk rates (getField payload "date")
                  "fawazahmed0/currency-api" = r := by
              simpa [Except.map] using h
            exact ⟨status, payload, rfl, hloop, rfl⟩

theorem usdConversionsHandler_ok_shape (p f : FetchOutcome) (out : ConversionsOutput)
    (h : usdConversionsHandler p f = .ok out) :
    ∃ r : RatesResult, fetchUsdRates p f = .ok r ∧
      mapRatesFromRecord r.rates = .ok out.rates := by
  unfold usdConversionsHandler at h
  rcases hfr : fetchUsdRates p f with e | r <;> simp only [hfr] at h
  · exact absurd h (by simp)
  · rcases hmr : mapRatesFromRecord r.rates with e | rates <;> simp only [hmr] at h
    · exact absurd h (by simp)
    · obtain rfl : ConversionsOutput.mk "USD" rates (timestampOf r.updatedAt) = out := by
        simpa using h
      exact ⟨r, rfl, hmr⟩

/-! ### Concrete fixtures used by witnesses and counterexamples -/

/-- A well-formed open.er-api payload (integer-valued rates keep kernel
evaluation of witnesses cheap). -/
def goodErPayload : JsonVal :=
  .objCons "result" (.str "success")
    (.objCons "rates"
      (.objCons "EUR" (.num (.finite 1))
        (.objCons "CNY" (.num (.finite 7))
          (.objCons "JPY" (.num (.finite 150))
            (.objCons "GBP" (.num (.finite 1))
              (.objCons "AUD" (.num (.finite 2)) .objNil)))))
      (.objCons "time_last_update_utc" (.str "Fri, 10 Oct 2025 00:02:31 +0000") .objNil))

/-- A successful Primary fetch. -/
def goodPrimary : FetchOutcome := .response true 200 (.ok goodErPayload)

/-- The rates record `fetchFromOpenErApi` builds from `goodErPayload`. -/
def goodErRates : List (String × JSNum) :=
  [("EUR", .finite 1), ("CNY", .finite 7), ("JPY", .finite 150),
    ("GBP", .finite 1), ("AUD", .finite 2)]

/-- The `RatesResult` of a successful Primary fetch of `goodErPayload`. -/
def goodErResult : RatesResult :=
  ⟨goodErRates, some (.str "Fri, 10 Oct 2025 00:02:31 +0000"), "open.er-api"⟩

/-- A well-formed jsDelivr payload (lower-case currency keys). -/
def goodJsPayload : JsonVal :=
  .objCons "date" (.str "2025-10-10")
    (.objCons "usd"
      (.objCons "eur" (.num (.finite 1))
        (.objCons "cny" (.num (.finite 7))
          (.objCons "jpy" (.num (.finite 150))
            (.objCons "gbp" (.num (.finite 1))
              (.objCons "aud" (.num (.finite 2)) .objNil)))))
      .objNil)

/-- A successful Secondary fetch. -/
def goodFallback : FetchOutcome := .response true 200 (.ok goodJsPayload)

/-- Substring relation: `sub` occurs contiguously in `hay`. -/
def occursIn (sub hay : String) : Prop :=
  ∃ pre post : List Char, hay.data = pre ++ (sub.data ++ post)

/-! ### Claims -/

/-- C1. For every execution of the fallback orchestrator
(`fetchUsdRates`): if the Primary adapter (`fetchFromOpenErApi`) returns a
result, that result is returned unchanged and the Secondary adapter
(`fetchFromJsDelivr`) is never invoked. -/
theorem claim1_primary_short_circuits (p f : FetchOutcome) (result : RatesResult)
    (h : fetchFromOpenErApi p = .ok result) :
    fetchUsdRatesT p f = (.ok result, false) := by
  simp [fetchUsdRatesT, h]

/-- Witness for C1 at a concrete successful primary response. -/
theorem claim1_witness :
    fetchFromOpenErApi goodPrimary = .ok goodErResult ∧
      fetchUsdRatesT goodPrimary (.transportError "fallback is down") =
        (.ok goodErResult, false) :=
  ⟨by decide, claim1_primary_short_circuits _ _ _ (by decide)⟩

/-- C2. If the Primary adapter fails with message `pm` and the
Secondary adapter fails with message `fm`, `fetchUsdRates` raises a single
error whose message contains both `pm` and `fm` verbatim. -/
theorem claim2_aggregate_contains_both (p f : FetchOutcome) (pm fm : String)
    (hp : fetchFromOpenErApi p = .error pm)
    (hf : fetchFromJsDelivr f = .error fm) :
    fetchUsdRates p f = .error (aggregateMsg pm fm) ∧
      occursIn pm (aggregateMsg pm fm) ∧ occursIn fm (aggregateMsg pm fm) := by
  refine ⟨by simp [fetchUsdRates, fetchUsdRatesT, hp, hf], ?_, ?_⟩
  · refine ⟨"Unable to fetch USD conversion rates from available providers (primary: ".data,
      ("; fallback: " ++ fm ++ ").").data, ?_⟩
    simp [aggregateMsg, String.data_append]
  · refine ⟨("Unable to fetch USD conversion rates from available providers (primary: "
        ++ pm ++ "; fallback: ").data, ").".data, ?_⟩
    simp [aggregateMsg, String.data_append]

/-- Witness for C2 at concrete transport failures of both providers. -/
theorem claim2_witness :
    fetchUsdRates (.transportError "primary boom") (.transportError "fallback boom") =
        .error (aggregateMsg "primary boom" "fallback boom") ∧
      occursIn "primary boom" (aggregateMsg "primary boom" "fallback boom") ∧
      occursIn "fallback boom" (aggregateMsg "primary boom" "fallback boom") :=
  claim2_aggregate_contains_both _ _ _ _ rfl rfl

/-- C3. Every `RatesResult` returned successfully by either provider
adapter maps each of the five required currency codes to a numeric,
non-NaN value; the normalized rates array emitted by the entrypoint lists
them in exactly the fixed declared order; and a provider response in
which a required code is absent or non-numeric makes the adapter fail
rather than return a partial result. -/
theorem claim3_rates_complete_ordered :
    (∀ (o : FetchOutcome) (r : RatesResult), fetchFromOpenErApi o = .ok r →
      r.rates.map Prod.fst = TOP_CURRENCIES ∧
        ∀ c ∈ TOP_CURRENCIES, ∃ n : JSNum, (c, n) ∈ r.rates ∧ n.isNaN = false) ∧
    (∀ (o : FetchOutcome) (r : RatesResult), fetchFromJsDelivr o = .ok r →
      r.rates.map Prod.fst = TOP_CURRENCIES ∧
        ∀ c ∈ TOP_CURRENCIES, ∃ n : JSNum, (c, n) ∈ r.rates ∧ n.isNaN = false) ∧
    (∀ (p f : FetchOutcome) (out : ConversionsOutput),
      usdConversionsHandler p f = .ok out →
      out.rates.map RateEntry.currency = TOP_CURRENCIES) ∧
    (∀ (status : Nat) (payload : JsonVal), ∀ c ∈ TOP_CURRENCIES,
      numericRate (jsIndex (getField payload "rates") c) = none →
      ∃ e, fetchFromOpenErApi (.response true status (.ok payload)) = .error e) ∧
    (∀ (status : Nat) (payload : JsonVal), ∀ c ∈ TOP_CURRENCIES,
      numericRate (jsIndex (getField payload "usd") (jsToLower c)) = none →
      ∃ e, fetchFromJsDelivr (.response true status (.ok payload)) = .error e) := by
  refine ⟨?_, ?_, ?_, ?_, ?_⟩
  · intro o r h
    obtain ⟨status, payload, -, hloop, -⟩ := fetchFromOpenErApi_ok_shape o r h
    obtain ⟨hmap, hall⟩ := openErApiLoop_ok _ _ _ hloop
    refine ⟨hmap, ?_⟩
    intro c hc
    obtain ⟨n, hn, hmem⟩ := hall c hc
    exact ⟨n, hmem, (numericRate_eq_some.mp hn).2⟩
  · intro o r h
    obtain ⟨status, payload, -, hloop, -⟩ := fetchFromJsDelivr_ok_shape o r h
    obtain ⟨hmap, hall⟩ := jsDelivrLoop_ok _ _ _ hloop
    refine ⟨hmap, ?_⟩
    intro c hc
    obtain ⟨n, hn, hmem⟩ := hall c hc
    exact ⟨n, hmem, (numericRate_eq_some.mp hn).2⟩
  · intro p f out h
    obtain ⟨r, -, hmr⟩ := usdConversionsHandler_ok_shape p f out h
    exact (mapRatesLoop_ok _ _ _ hmr).1
  · intro status payload c hc hnone
    rcases hres : fetchFromOpenErApi (.response true status (.ok payload)) with e | r
    · exact ⟨e, rfl⟩
    · obtain ⟨status', payload', hshape, hloop, -⟩ :=
        fetchFromOpenErApi_ok_shape _ r hres
      obtain ⟨-, rfl⟩ : status = status' ∧ payload = payload' := by
        simpa using hshape
      obtain ⟨n, hn, -⟩ := (openErApiLoop_ok _ _ _ hloop).2 c hc
      rw [hnone] at hn
      cases hn
  · intro status payload c hc hnone
    rcases hres : fetchFromJsDelivr (.response true status (.ok payload)) with e | r
    · exact ⟨e, rfl⟩
    · obtain ⟨status', payload', hshape, hloop, -⟩ :=
        fetchFromJsDelivr_ok_shape _ r hres
      obtain ⟨-, rfl⟩ : status = status' ∧ payload = payload' := by
        simpa using hshape
      obtain ⟨n, hn, -⟩ := (jsDelivrLoop_ok _ _ _ hloop).2 c hc
      rw [hnone] at hn
      cases hn

/-- Witness for C3: the first conjunct applied to a concrete successful
Primary fetch. -/
theorem claim3_witness :
    fetchFromOpenErApi goodPrimary = .ok goodErResult ∧
      (goodErResult.rates.map Prod.fst = TOP_CURRENCIES ∧
        ∀ c ∈ TOP_CURRENCIES, ∃ n : JSNum,
          (c, n) ∈ goodErResult.rates ∧ n.isNaN = false) :=
  ⟨by decide, claim3_rates_complete_ordered.1 goodPrimary goodErResult (by decide)⟩

/-- The `RatesResult` of a successful Secondary fetch of `goodJsPayload`
(same numeric values as `goodErRates`, stored under upper-case codes). -/
def goodJsResult : RatesResult :=
  ⟨goodErRates, some (.str "2025-10-10"), "fawazahmed0/currency-api"⟩

/-- C6. For every required currency code, the Secondary adapter looks
the rate up in the `usd` container under the lower-cased code and, on
success, stores it in the returned `RatesResult` under the original
upper-case code. -/
theorem claim6_lowercase_lookup (o : FetchOutcome) (r : RatesResult)
    (status : Nat) (payload : JsonVal)
    (ho : o = .response true status (.ok payload))
    (h : fetchFromJsDelivr o = .ok r) :
    ∀ c ∈ TOP_CURRENCIES, ∃ n : JSNum,
      jsIndex (getField payload "usd") (jsToLower c) = some (.num n) ∧
      n.isNaN = false ∧ (c, n) ∈ r.rates := by
  obtain ⟨status', payload', hshape, hloop, -⟩ := fetchFromJsDelivr_ok_shape o r h
  rw [ho] at hshape
  obtain ⟨-, rfl⟩ : status = status' ∧ payload = payload' := by simpa using hshape
  obtain ⟨-, hall⟩ := jsDelivrLoop_ok _ _ _ hloop
  intro c hc
  obtain ⟨n, hn, hmem⟩ := hall c hc
  obtain ⟨hidx, hnan⟩ := numericRate_eq_some.mp hn
  exact ⟨n, hidx, hnan, hmem⟩

/-- Witness for C6 at a concrete successful Secondary fetch. -/
theorem claim6_witness :
    fetchFromJsDelivr goodFallback = .ok goodJsResult ∧
      ∀ c ∈ TOP_CURRENCIES, ∃ n : JSNum,
        jsIndex (getField goodJsPayload "usd") (jsToLower c) = some (.num n) ∧
        n.isNaN = false ∧ (c, n) ∈ goodJsResult.rates :=
  ⟨by decide, claim6_lowercase_lookup goodFallback goodJsResult 200 goodJsPayload
    rfl (by decide)⟩

theorem string_ne_of_ne_at (a b : String) (i : ℕ)
    (h : a.data.get? i ≠ b.data.get? i) : a ≠ b := by
  intro he
  exact h (by rw [he])

/-- Two strings differ when one is `p ++ x ++ suf` and the other differs
from `p` at an index inside `p`. -/
theorem ne_of_early_diff (p x suf b : String) (i : ℕ) (hip : i < p.data.length)
    (hd : p.data.get? i ≠ b.data.get? i) : p ++ x ++ suf ≠ b := by
  intro he
  apply hd
  subst he
  rw [String.data_append, String.data_append, List.append_assoc,
    List.get?_append hip]

/-- Counterexample to C4 as stated: a 500 response whose body is not valid
JSON fails with the body's parse error, not the unexpected-status message
(the source awaits `response.json()` before checking `response.ok`). -/
theorem claim4_counterexample :
    fetchFromOpenErApi
        (.response false 500 (.error "Unexpected token < in JSON at position 0")) =
      .error "Unexpected token < in JSON at position 0" ∧
    "Unexpected token < in JSON at position 0" ≠
      "open.er-api responded with unexpected status 500." :=
  ⟨rfl, by decide⟩

/-- C4 (amended). A non-success HTTP status always makes the adapter
fail; it yields the adapter's unexpected-status message whenever the
response body parses as JSON (when the body fails to parse, the parse
error is raised instead); and the adapter-generated messages of the
distinct failure conditions (unexpected status, malformed shape, missing
currency) are pairwise distinct. -/
theorem claim4_amended_status_failure :
    (∀ (status : Nat) (body : Except String JsonVal),
      ∃ e, fetchFromOpenErApi (.response false status body) = .error e) ∧
    (∀ (status : Nat) (body : Except String JsonVal),
      ∃ e, fetchFromJsDelivr (.response false status body) = .error e) ∧
    (∀ (status : Nat) (payload : JsonVal),
      fetchFromOpenErApi (.response false status (.ok payload)) =
        .error ("open.er-api responded with unexpected status "
          ++ toString status ++ ".")) ∧
    (∀ (status : Nat) (payload : JsonVal),
      fetchFromJsDelivr (.response false status (.ok payload)) =
        .error ("jsDelivr currency API responded with unexpected status "
          ++ toString status ++ ".")) ∧
    (∀ (status : Nat), ∀ c ∈ TOP_CURRENCIES,
      ("open.er-api responded with unexpected status " ++ toString status ++ ".") ≠
          "open.er-api response did not contain USD rate data." ∧
      ("open.er-api responded with unexpected status " ++ toString status ++ ".") ≠
          ("open.er-api missing rate for " ++ c ++ ".") ∧
      "open.er-api response did not contain USD rate data." ≠
          ("open.er-api missing rate for " ++ c ++ ".")) ∧
    (∀ (status : Nat), ∀ c ∈ TOP_CURRENCIES,
      ("jsDelivr currency API responded with unexpected status "
          ++ toString status ++ ".") ≠
          "jsDelivr currency API response did not include usd rates." ∧
      ("jsDelivr currency API responded with unexpected status "
          ++ toString status ++ ".") ≠
          ("jsDelivr currency API missing rate for " ++ c ++ ".") ∧
      "jsDelivr currency API response did not include usd rates." ≠
          ("jsDelivr currency API missing rate for " ++ c ++ ".")) := by
  refine ⟨?_, ?_, ?_, ?_, ?_, ?_⟩
  · intro status body
    rcases body with e | payload
    · exact ⟨e, rfl⟩
    · exact ⟨_, rfl⟩
  · intro status body
    rcases body with e | payload
    · exact ⟨e, rfl⟩
    · exact ⟨_, rfl⟩
  · intro status payload; rfl
  · intro status payload; rfl
  · intro status c hc
    fin_cases hc <;>
      exact ⟨ne_of_early_diff _ _ _ _ 18 (by decide) (by decide),
        ne_of_early_diff _ _ _ _ 12 (by decide) (by decide), by decide⟩
  · intro status c hc
    fin_cases hc <;>
      exact ⟨ne_of_early_diff _ _ _ _ 28 (by decide) (by decide),
        ne_of_early_diff _ _ _ _ 22 (by decide) (by decide), by decide⟩

/-- Witness for C4 (amended) at a concrete 500 response with a JSON body. -/
theorem claim4_witness :
    (∃ e, fetchFromOpenErApi (.response false 500 (.ok .objNil)) = .error e) ∧
    fetchFromOpenErApi (.response false 500 (.ok .objNil)) =
      .error ("open.er-api responded with unexpected status "
        ++ toString 500 ++ ".") :=
  ⟨claim4_amended_status_failure.1 500 (.ok .objNil),
    claim4_amended_status_failure.2.2.1 500 .objNil⟩

/-- The property positive finite number (spec section 3, RateEntry) that C5
asserts of every emitted rate. -/
def JSNum.isPosFinite : JSNum → Bool
  | .finite q => decide (0 < q)
  | _ => false

/-- An open.er-api payload whose EUR rate is the (valid JSON) number -1. -/
def negErPayload : JsonVal :=
  .objCons "result" (.str "success")
    (.objCons "rates"
      (.objCons "EUR" (.num (.finite (-1)))
        (.objCons "CNY" (.num (.finite 7))
          (.objCons "JPY" (.num (.finite 150))
            (.objCons "GBP" (.num (.finite 1))
              (.objCons "AUD" (.num (.finite 2)) .objNil)))))
      .objNil)

/-- A successful Primary fetch delivering `negErPayload`. -/
def negPrimary : FetchOutcome := .response true 200 (.ok negErPayload)

/-- The entrypoint output for `negPrimary`. -/
def negConvOut : ConversionsOutput :=
  ⟨"USD",
    [⟨"EUR", .finite (-1)⟩, ⟨"CNY", .finite 7⟩, ⟨"JPY", .finite 150⟩,
      ⟨"GBP", .finite 1⟩, ⟨"AUD", .finite 2⟩],
    none⟩

/-- Counterexample to C5 as stated: a provider may deliver a negative
(or infinite) numeric rate — only "number and not NaN" is validated — and
the entrypoint then succeeds with a non-positive rate in a `RateEntry`. -/
theorem claim5_counterexample :
    usdConversionsHandler negPrimary (.transportError "down") = .ok negConvOut ∧
    RateEntry.mk "EUR" (.finite (-1)) ∈ negConvOut.rates ∧
    (JSNum.finite (-1)).isPosFinite = false := by decide

theorem summaryHandler_ok_shape (configured : Bool) (p f : FetchOutcome)
    (chat : Except String (Option JsonVal)) (parsed : Option JsonVal)
    (out : SummaryOutput)
    (h : summaryHandler configured p f chat parsed = .ok out) :
    configured = true ∧
    ∃ (r : RatesResult) (results : Option JsonVal),
      fetchUsdRates p f = .ok r ∧
      mapRatesFromRecord r.rates = .ok out.rates ∧
      chat = .ok results ∧
      rawContentOf results ≠ "" ∧
      out.summary = (extractSummaryHighlights (rawContentOf results) parsed).1 ∧
      out.highlights =
        finalizeHighlights
          (extractSummaryHighlights (rawContentOf results) parsed).2 out.rates := by
  cases configured
  · exact absurd h (by simp [summaryHandler])
  · refine ⟨rfl, ?_⟩
    unfold summaryHandler at h
    simp only [Bool.not_true, Bool.false_eq_true, if_false] at h
    rcases hfr : fetchUsdRates p f with e | r <;> simp only [hfr] at h
    · exact absurd h (by simp)
    · rcases hmr : mapRatesFromRecord r.rates with e | rates <;> simp only [hmr] at h
      · exact absurd h (by simp)
      · rcases chat with e | results
        · exact absurd h (by simp at h)
        · simp only at h
          by_cases hraw : rawContentOf results = ""
          · rw [if_pos hraw] at h
            exact absurd h (by simp)
          · rw [if_neg hraw] at h
            obtain rfl :
                SummaryOutput.mk "USD" (timestampOf r.updatedAt)
                  (extractSummaryHighlights (rawContentOf results) parsed).1
                  (finalizeHighlights
                    (extractSummaryHighlights (rawContentOf results) parsed).2 rates)
                  r.provider rates = out := by
              simpa using h
            exact ⟨r, results, rfl, hmr, rfl, hraw, rfl, rfl⟩

/-- C5 (amended). Every `RateEntry` produced in a successful response
of either entrypoint carries a numeric rate that is not NaN; positivity
and finiteness are not enforced by the code. -/
theorem claim5_amended_rates_non_nan :
    (∀ (p f : FetchOutcome) (out : ConversionsOutput),
      usdConversionsHandler p f = .ok out →
      ∀ e ∈ out.rates, e.rate.isNaN = false) ∧
    (∀ (configured : Bool) (p f : FetchOutcome)
        (chat : Except String (Option JsonVal)) (parsed : Option JsonVal)
        (out : SummaryOutput),
      summaryHandler configured p f chat parsed = .ok out →
      ∀ e ∈ out.rates, e.rate.isNaN = false) := by
  constructor
  · intro p f out h e he
    obtain ⟨r, -, hmr⟩ := usdConversionsHandler_ok_shape p f out h
    exact (validRate_eq_some.mp ((mapRatesLoop_ok _ _ _ hmr).2 e he)).2
  · intro configured p f chat parsed out h e he
    obtain ⟨-, r, results, -, hmr, -⟩ := summaryHandler_ok_shape _ _ _ _ _ _ h
    exact (validRate_eq_some.mp ((mapRatesLoop_ok _ _ _ hmr).2 e he)).2

/-- The entrypoint output for the good fixtures. -/
def goodConvOut : ConversionsOutput :=
  ⟨"USD",
    [⟨"EUR", .finite 1⟩, ⟨"CNY", .finite 7⟩, ⟨"JPY", .finite 150⟩,
      ⟨"GBP", .finite 1⟩, ⟨"AUD", .finite 2⟩],
    some "Fri, 10 Oct 2025 00:02:31 +0000"⟩

/-- Witness for C5 (amended) at a concrete successful fetch. -/
theorem claim5_witness :
    usdConversionsHandler goodPrimary goodFallback = .ok goodConvOut ∧
      ∀ e ∈ goodConvOut.rates, e.rate.isNaN = false :=
  ⟨by decide, claim5_amended_rates_non_nan.1 goodPrimary goodFallback goodConvOut
    (by decide)⟩

/-- C7. For every non-empty generator response text: if it parses as
strict JSON, the summary and highlights are taken from its
`summary`/`highlights` fields; if the parse fails, the first non-empty
line (leading bullet/numbering characters stripped) becomes the summary
and the next up to three such lines become highlights; and if highlights
are still empty after both strategies, up to three generic highlights are
synthesized from the rate table. -/
theorem claim7_parsing_policy :
    (∀ (rawContent : String) (p : JsonVal) (s : String),
      getField p "summary" = some (.str s) →
      (extractSummaryHighlights rawContent (some p)).1 = jsTrim s) ∧
    (∀ (rawContent : String) (p : JsonVal) (hv : JsonVal),
      getField p "highlights" = some hv → hv.isArray = true →
      (extractSummaryHighlights rawContent (some p)).2 =
        (hv.elems.map fun item => jsTrim (jsString item)).filter
          fun item => item.length > 0) ∧
    (∀ (rawContent line0 : String) (rest : List String),
      fallbackLines rawContent = line0 :: rest →
      extractSummaryHighlights rawContent none = (line0, rest.take 3)) ∧
    (∀ rates : List RateEntry,
      finalizeHighlights [] rates = (rates.take 3).map synthHighlight) := by
  refine ⟨?_, ?_, ?_, ?_⟩
  · intro rawContent p s hf
    have hnull : p ≠ .null := by
      rintro rfl
      simp [getField] at hf
    simp only [extractSummaryHighlights]
    rw [if_neg hnull, hf]
  · intro rawContent p hv hf harr
    have hnull : p ≠ .null := by
      rintro rfl
      simp [getField] at hf
    simp only [extractSummaryHighlights]
    rw [if_neg hnull, hf]
    simp [harr]
  · intro rawContent line0 rest hlines
    simp only [extractSummaryHighlights, fallbackExtract]
    rw [hlines]
  · intro rates
    rfl

/-- Witness for C7: the spec's own malformed-output vector through the
line-splitting fallback. -/
theorem claim7_witness :
    fallbackLines "Rates look stable.\n- EUR flat\n- JPY flat" =
        "Rates look stable." :: ["EUR flat", "JPY flat"] ∧
      extractSummaryHighlights "Rates look stable.\n- EUR flat\n- JPY flat" none =
        ("Rates look stable.", ["EUR flat", "JPY flat"]) :=
  ⟨by decide, claim7_parsing_policy.2.2.1 "Rates look stable.\n- EUR flat\n- JPY flat"
    "Rates look stable." ["EUR flat", "JPY flat"] (by decide)⟩

/-- Counterexample to C8 as stated: with a configured generator that
would return content, the summary entrypoint still fails when both
upstream rate providers fail — a failure that is neither the no-content
case nor the configuration error. -/
theorem claim8_counterexample :
    summaryHandler true (.transportError "primary down")
        (.transportError "fallback down")
        (.ok (some (.arrCons (.objCons "content" (.str "hello") .objNil) .arrNil)))
        none =
      .error (aggregateMsg "primary down" "fallback down") ∧
    aggregateMsg "primary down" "fallback down" ≠ configErrorMsg ∧
    aggregateMsg "primary down" "fallback down" ≠ noContentMsg := by decide

/-- C8 (amended). The summary entrypoint fails only if the generator
is unconfigured, the upstream rate fetch or normalization fails, the
generator call itself rejects, or the generator returns no content; when
unconfigured it raises the configuration error (before any fetch), never
returning scripted prose. -/
theorem claim8_amended_failure_modes :
    (∀ (configured : Bool) (p f : FetchOutcome)
        (chat : Except String (Option JsonVal)) (parsed : Option JsonVal)
        (e : String),
      summaryHandler configured p f chat parsed = .error e →
      (configured = false ∧ e = configErrorMsg) ∨
      fetchUsdRates p f = .error e ∨
      (∃ r, fetchUsdRates p f = .ok r ∧ mapRatesFromRecord r.rates = .error e) ∨
      chat = .error e ∨
      (∃ results, chat = .ok results ∧ rawContentOf results = "" ∧
        e = noContentMsg)) ∧
    (∀ (p f : FetchOutcome) (chat : Except String (Option JsonVal))
        (parsed : Option JsonVal),
      summaryHandler false p f chat parsed = .error configErrorMsg) := by
  constructor
  · intro configured p f chat parsed e h
    cases configured
    · left
      have he : configErrorMsg = e := by simpa [summaryHandler] using h
      exact ⟨rfl, he.symm⟩
    · right
      unfold summaryHandler at h
      simp only [Bool.not_true, Bool.false_eq_true, if_false] at h
      rcases hfr : fetchUsdRates p f with e' | r <;> simp only [hfr] at h
      · left
        obtain rfl : e' = e := by simpa using h
        rfl
      · right
        rcases hmr : mapRatesFromRecord r.rates with e' | rates <;>
          simp only [hmr] at h
        · left
          obtain rfl : e' = e := by simpa using h
          exact ⟨r, rfl, hmr⟩
        · right
          rcases chat with e' | results
          · left
            obtain rfl : e' = e := by simpa using h
            rfl
          · right
            simp only at h
            by_cases hraw : rawContentOf results = ""
            · rw [if_pos hraw] at h
              obtain rfl : noContentMsg = e := by simpa using h
              exact ⟨results, rfl, hraw, rfl⟩
            · rw [if_neg hraw] at h
              exact absurd h (by simp)
  · intro p f chat parsed
    rfl

/-- Witness for C8 (amended): the first conjunct applied to the concrete
unconfigured run, whose failure is the configuration error. -/
theorem claim8_witness :
    (false = false ∧ configErrorMsg = configErrorMsg) ∨
    fetchUsdRates goodPrimary goodFallback = .error configErrorMsg ∨
    (∃ r, fetchUsdRates goodPrimary goodFallback = .ok r ∧
      mapRatesFromRecord r.rates = .error configErrorMsg) ∨
    (.ok none : Except String (Option JsonVal)) = .error configErrorMsg ∨
    (∃ results, (.ok none : Except String (Option JsonVal)) = .ok results ∧
      rawContentOf results = "" ∧ configErrorMsg = noContentMsg) :=
  claim8_amended_failure_modes.1 false goodPrimary goodFallback (.ok none) none
    configErrorMsg rfl

theorem finalizeHighlights_spec (hs : List String) (rates : List RateEntry)
    (hlen : rates.length = 5) :
    finalizeHighlights hs rates ≠ [] ∧
      (hs = [] → (finalizeHighlights hs rates).length = 3) := by
  unfold finalizeHighlights
  by_cases h : hs.length = 0
  · rw [if_pos h]
    have h3 : ((rates.take 3).map synthHighlight).length = 3 := by
      simp [List.length_take, hlen]
    constructor
    · intro hcon
      rw [hcon] at h3
      simp at h3
    · intro _
      exact h3
  · rw [if_neg h]
    refine ⟨?_, ?_⟩
    · intro hcon
      rw [hcon] at h
      simp at h
    · intro hnil
      rw [hnil] at h
      simp at h

/-- C9. Every successful response of the summary entrypoint has a
non-empty highlights array; when both extraction strategies yield no
highlights, exactly three synthesized highlights are produced from the
five-entry rate table. -/
theorem claim9_highlights_nonempty (configured : Bool) (p f : FetchOutcome)
    (chat : Except String (Option JsonVal)) (parsed : Option JsonVal)
    (out : SummaryOutput)
    (h : summaryHandler configured p f chat parsed = .ok out) :
    out.highlights ≠ [] ∧
      (∀ results, chat = .ok results →
        (extractSummaryHighlights (rawContentOf results) parsed).2 = [] →
        out.highlights.length = 3) := by
  obtain ⟨-, r, results, -, hmr, hchat, -, -, hhl⟩ :=
    summaryHandler_ok_shape _ _ _ _ _ _ h
  have hlen : out.rates.length = 5 := by
    have hmap := (mapRatesLoop_ok _ _ _ hmr).1
    have := congrArg List.length hmap
    simpa [TOP_CURRENCIES] using this
  constructor
  · rw [hhl]
    exact (finalizeHighlights_spec _ _ hlen).1
  · intro results' hres hempty
    obtain rfl : results = results' := by
      rw [hres] at hchat
      exact (Except.ok.inj hchat).symm
    rw [hhl, hempty]
    exact (finalizeHighlights_spec _ _ hlen).2 rfl

/-- The `results` field of a successful chat call whose single message
content is the plain text `hello`. -/
def goodChat : Except String (Option JsonVal) :=
  .ok (some (.arrCons (.objCons "content" (.str "hello") .objNil) .arrNil))

/-- The entries `mapRatesFromRecord` produces from `goodErRates`. -/
def goodRateEntries : List RateEntry :=
  [⟨"EUR", .finite 1⟩, ⟨"CNY", .finite 7⟩, ⟨"JPY", .finite 150⟩,
    ⟨"GBP", .finite 1⟩, ⟨"AUD", .finite 2⟩]

/-- The summary output for `goodPrimary`/`goodChat` with unparseable
(plain-text, single-line) generator output: highlights are synthesized. -/
def goodSummaryOut : SummaryOutput :=
  ⟨"USD", some "Fri, 10 Oct 2025 00:02:31 +0000", "hello",
    ["USD/EUR trades near 1.0000.", "USD/CNY trades near 7.0000.",
      "USD/JPY trades near 150.0000."],
    "open.er-api", goodRateEntries⟩

/-- Witness for C9 at a concrete successful summary run. -/
theorem claim9_witness :
    summaryHandler true goodPrimary goodFallback goodChat none =
        .ok goodSummaryOut ∧
      (goodSummaryOut.highlights ≠ [] ∧
        (∀ results, goodChat = .ok results →
          (extractSummaryHighlights (rawContentOf results) none).2 = [] →
          goodSummaryOut.highlights.length = 3)) :=
  ⟨by decide, claim9_highlights_nonempty true goodPrimary goodFallback goodChat
    none goodSummaryOut (by decide)⟩

/-- C10. When the generator text parses as valid JSON whose `summary`
field is absent or not a string, the returned summary equals the whole
raw text: for any non-null parse result the line-splitting fallback is
not applied at all, and for the only text that parses to JSON `null`
(the text `null` itself) the fallback still returns the raw text. -/
theorem claim10_json_without_summary (rawContent : String) (p : JsonVal)
    (hnull : p ≠ .null)
    (hs : ∀ s : String, getField p "summary" ≠ some (.str s)) :
    (extractSummaryHighlights rawContent (some p)).1 = rawContent ∧
    (extractSummaryHighlights "null" (some .null)).1 = "null" := by
  constructor
  · simp only [extractSummaryHighlights]
    rw [if_neg hnull]
  · decide

/-- Witness for C10: text `42` parses to the JSON number 42, which has no
`summary` field; the summary is the raw text. -/
theorem claim10_witness :
    (extractSummaryHighlights "42" (some (.num (.finite 42)))).1 = "42" ∧
    (extractSummaryHighlights "null" (some .null)).1 = "null" :=
  claim10_json_without_summary "42" (.num (.finite 42)) (by decide)
    (fun s => by simp [getField])

end UsdAgent
